import Mathlib

/-!
Verification of the BRM renewal-calendar application against its
natural-language specification.

The repository ships the React frontend (`src/frontend`): the API client
(`services/api.ts`), the contracts table and edit dialog
(`pages/ContractsPage.tsx`) and the calendar / export dialog
(`pages/CalendarPage.tsx`).  Those are embedded below directly from the
TypeScript source.  The backend extraction pipeline (TextLayerExtractor,
OCRFallbackEngine, InferenceClient, FieldNormalizer, DeadlineComputer,
CalendarEventBuilder, ScheduleSerializer) is described by the
specification and by the frontend types, but its code is not part of the
repository snapshot; the definitions for it are modelled from the
specification's words and are marked as such in their doc comments.

Conventions: calendar dates are a `(year, month, day)` structure;
JavaScript numbers appearing in the embedded frontend code are modelled
as integers (`Int`), and the special values `NaN`/`±Infinity` that the
contracts-table comparator manipulates are modelled explicitly by the
`JsNum` type.  Nullable values are `Option`s.
-/

namespace BRM

/-! ### Character-level string operations

Core `String` functions such as `trim`, `toNat?` and `splitOn` are
defined by well-founded recursion on byte positions and do not reduce
inside the kernel, so the embedding re-implements the handful it needs
structurally over `String.data`. -/

/-- Value of a decimal digit character. -/
def digitVal (c : Char) : Option Nat :=
  if '0' ≤ c && c ≤ '9' then some (c.toNat - '0'.toNat) else none

/-- Parse a non-empty all-digit character list as a natural number. -/
def parseNatChars (l : List Char) : Option Nat :=
  if l.isEmpty then none
  else l.foldl (fun acc c => do
    let a ← acc
    let d ← digitVal c
    pure (a * 10 + d)) (some 0)

/-- Decimal natural-number parse of a string (the behavior of
`String.toNat?`). -/
def parseNat? (s : String) : Option Nat :=
  parseNatChars s.data

/-- Decimal integer parse of a string, with an optional leading minus (the
behavior of `String.toInt?`). -/
def parseInt? (s : String) : Option Int :=
  match s.data with
  | '-' :: rest => (parseNatChars rest).map (fun n => -(n : Int))
  | l => (parseNatChars l).map (fun n => (n : Int))

/-- Strip leading and trailing whitespace (the behavior of `String.trim`
and of JavaScript `trim`). -/
def jsTrim (s : String) : String :=
  ⟨((s.data.dropWhile Char.isWhitespace).reverse.dropWhile Char.isWhitespace).reverse⟩

/-- Split a character list at every character satisfying `p`; separators
are consumed and empty segments kept (the behavior of `String.split`). -/
def splitByPred (p : Char → Bool) : List Char → List (List Char)
  | [] => [[]]
  | c :: rest =>
      let r := splitByPred p rest
      if p c then [] :: r
      else match r with
        | h :: t => (c :: h) :: t
        | [] => [[c]]

/-- Lowercase a string character-wise (the behavior of `toLowerCase` on
ASCII). -/
def jsToLower (s : String) : String :=
  ⟨s.data.map Char.toLower⟩

/-! ### Calendar dates -/

/-- A civil calendar date. -/
structure Date where
  year : Nat
  month : Nat
  day : Nat
deriving DecidableEq, Repr

/-- Gregorian leap-year rule. -/
def isLeap (y : Nat) : Bool :=
  (y % 4 == 0 && y % 100 != 0) || y % 400 == 0

/-- Number of days in month `m` of year `y` (months are 1-based). -/
def daysInMonth (y m : Nat) : Nat :=
  if m == 2 then (if isLeap y then 29 else 28)
  else if m == 4 || m == 6 || m == 9 || m == 11 then 30
  else 31

/-- Calendar validity of a date: month in 1..12, day in 1..days-in-month. -/
def Date.valid (d : Date) : Bool :=
  1 ≤ d.month && d.month ≤ 12 && 1 ≤ d.day && d.day ≤ daysInMonth d.year d.month

/-- The calendar day immediately before `d`. -/
def prevDay (d : Date) : Date :=
  if d.day > 1 then ⟨d.year, d.month, d.day - 1⟩
  else if d.month > 1 then ⟨d.year, d.month - 1, daysInMonth d.year (d.month - 1)⟩
  else ⟨d.year - 1, 12, 31⟩

/-- `subDays d n` is the calendar date `n` days before `d`. -/
def subDays : Date → Nat → Date
  | d, 0 => d
  | d, n + 1 => subDays (prevDay d) n

/-! ### DeadlineComputer (spec §4.5) -/

/-- Modelled from the spec: the backend `DeadlineComputer`, absent from the
repository snapshot, is the pure function
`notice_deadline = renewal_date − notice_period_days days` iff both inputs
are non-null, otherwise null. -/
def computeNoticeDeadline (renewal_date : Option Date)
    (notice_period_days : Option Nat) : Option Date :=
  match renewal_date, notice_period_days with
  | some rd, some np => some (subDays rd np)
  | _, _ => none

/-! ### FieldNormalizer date parsing (spec §4.4) -/

/-- Long month names, 1-based. -/
def longMonths : List (String × Nat) :=
  [("January", 1), ("February", 2), ("March", 3), ("April", 4), ("May", 5),
   ("June", 6), ("July", 7), ("August", 8), ("September", 9), ("October", 10),
   ("November", 11), ("December", 12)]

/-- Short month names, 1-based. -/
def shortMonths : List (String × Nat) :=
  [("Jan", 1), ("Feb", 2), ("Mar", 3), ("Apr", 4), ("May", 5), ("Jun", 6),
   ("Jul", 7), ("Aug", 8), ("Sep", 9), ("Oct", 10), ("Nov", 11), ("Dec", 12)]

/-- Build a date from numeric components, succeeding only when calendar-valid. -/
def mkValidDate (y m d : Nat) : Option Date :=
  if (Date.mk y m d).valid then some ⟨y, m, d⟩ else none

/-- Split a raw date string on the delimiters space, comma, slash, hyphen. -/
def dateTokens (s : String) : List String :=
  ((splitByPred (fun c => c = ' ' || c = ',' || c = '/' || c = '-') s.data).filter
    (· ≠ [])).map String.mk

/-- ISO 8601 attempt: four-digit year, month, day. -/
def tryIsoYMD (a b c : String) : Option Date := do
  guard (a.length == 4)
  let y ← parseNat? a
  let m ← parseNat? b
  let d ← parseNat? c
  mkValidDate y m d

/-- Month-name + day + year attempt, over a given month-name table. -/
def tryMonthNameDY (table : List (String × Nat)) (a b c : String) : Option Date := do
  let m ← table.lookup a
  let d ← parseNat? b
  let y ← parseNat? c
  mkValidDate y m d

/-- Day + long-month-name + year attempt. -/
def tryDayMonthNameY (a b c : String) : Option Date := do
  let d ← parseNat? a
  let m ← longMonths.lookup b
  let y ← parseNat? c
  mkValidDate y m d

/-- Numeric month/day/year attempt. -/
def tryNumericMDY (a b c : String) : Option Date := do
  let m ← parseNat? a
  let d ← parseNat? b
  let y ← parseNat? c
  mkValidDate y m d

/-- Numeric day/month/year attempt. -/
def tryNumericDMY (a b c : String) : Option Date := do
  let d ← parseNat? a
  let m ← parseNat? b
  let y ← parseNat? c
  mkValidDate y m d

/-- Modelled from the spec: the backend `FieldNormalizer`'s date parser,
absent from the repository snapshot.  Parsing attempts, in the spec's
fixed priority order — ISO 8601; long month name + day + year; short
month name + day + year; day + long month name + year; numeric
month/day/year; numeric day/month/year — returning every calendar-valid
interpretation of the raw string in that order. -/
def parseDateCandidates (s : String) : List Date :=
  match dateTokens s with
  | [a, b, c] =>
      [tryIsoYMD a b c,
       tryMonthNameDY longMonths a b c,
       tryMonthNameDY shortMonths a b c,
       tryDayMonthNameY a b c,
       tryNumericMDY a b c,
       tryNumericDMY a b c].filterMap id
  | _ => []

/-- Remove duplicates keeping the first occurrence of each element. -/
def dedupFirst {α : Type} [DecidableEq α] (l : List α) : List α :=
  l.foldl (fun acc x => if acc.contains x then acc else acc ++ [x]) []

/-- Modelled from the spec: the backend `FieldNormalizer`'s treatment of one
date field, absent from the repository snapshot.  All calendar-valid
candidates of all raw strings, in the order produced and deduplicated,
become the field's candidate list; the first becomes the field's value;
the field is uncertain when more than one candidate remains. -/
def normalizeDateField (raws : List String) : Option Date × List Date × Bool :=
  let cands := dedupFirst ((raws.map parseDateCandidates).flatten)
  (cands.head?, cands, decide (1 < cands.length))

/-- Modelled from the spec: free-text normalization — trim surrounding
whitespace, empty strings become null. -/
def normalizeText (v : Option String) : Option String :=
  match v with
  | none => none
  | some s => let t := jsTrim s; if t = "" then none else some t

/-- Modelled from the spec: `notice_period_days` coercion — values outside
`[0, 3650]` are rejected (field nulled and flagged uncertain). -/
def normalizeNoticePeriod (v : Option Int) : Option Nat × Bool :=
  match v with
  | none => (none, false)
  | some n => if 0 ≤ n && n ≤ 3650 then (some n.toNat, false) else (none, true)

/-! ### Pipeline records (spec §3, §4.3, §7) -/

/-- `extraction_status` values of an `ExtractionRecord`. -/
inductive ExtractionStatus
  | pending
  | success
  | failed
deriving DecidableEq, Repr

/-- Modelled from the spec: the terminal failure classes of the backend
`InferenceClient`, absent from the repository snapshot — network/timeout
error, non-2xx response, schema-invalid response body. -/
inductive InferenceError
  | timeout
  | network
  | httpStatus (code : Nat)
  | schemaInvalid
deriving DecidableEq, Repr

/-- Human-readable note recording an inference failure class. -/
def describeFailure : InferenceError → String
  | .timeout => "inference request timed out"
  | .network => "inference network error"
  | .httpStatus code => "inference service returned HTTP " ++ toString code
  | .schemaInvalid => "inference response failed schema validation"

/-- Raw, untyped output of a successful inference call: free-text fields and
per-date-field lists of raw candidate strings. -/
structure RawFields where
  vendor_name : Option String
  start_date : List String
  end_date : List String
  renewal_date : List String
  renewal_term : Option String
  notice_period_days : Option Int
  confidence : Option Nat
  notes : Option String
deriving DecidableEq, Repr

/-- The normalized per-document record of spec §3.  Confidence is modelled
as an integer percentage. -/
structure ExtractionRecord where
  vendor_name : Option String
  start_date : Option Date
  end_date : Option Date
  renewal_date : Option Date
  renewal_term : Option String
  notice_period_days : Option Nat
  notice_deadline : Option Date
  extraction_status : ExtractionStatus
  extraction_confidence : Option Nat
  needs_review : Bool
  extraction_notes : Option String
  uncertain_fields : List String
  candidate_dates : List (String × List Date)
deriving DecidableEq, Repr

/-- Fixed review threshold for `extraction_confidence`, as a percentage. -/
def reviewThreshold : Nat := 60

/-- Modelled from the spec: the backend `FieldNormalizer`, absent from the
repository snapshot — converts raw inference output into the typed record,
populating `uncertain_fields`, `candidate_dates` and `needs_review`, and
invoking the `DeadlineComputer` at creation time. -/
def normalizeFields (raw : RawFields) : ExtractionRecord :=
  let (sv, sc, su) := normalizeDateField raw.start_date
  let (ev, ec, eu) := normalizeDateField raw.end_date
  let (rv, rc, ru) := normalizeDateField raw.renewal_date
  let (npv, npu) := normalizeNoticePeriod raw.notice_period_days
  let uf := (if su then ["start_date"] else [])
    ++ (if eu then ["end_date"] else [])
    ++ (if ru then ["renewal_date"] else [])
    ++ (if npu then ["notice_period_days"] else [])
  let lowConfidence := match raw.confidence with
    | some conf => decide (conf < reviewThreshold)
    | none => true
  { vendor_name := normalizeText raw.vendor_name
    start_date := sv
    end_date := ev
    renewal_date := rv
    renewal_term := normalizeText raw.renewal_term
    notice_period_days := npv
    notice_deadline := computeNoticeDeadline rv npv
    extraction_status := .success
    extraction_confidence := raw.confidence
    needs_review := lowConfidence || !uf.isEmpty || rv.isNone || npv.isNone
    extraction_notes := raw.notes
    uncertain_fields := uf
    candidate_dates := [("start_date", sc), ("end_date", ec), ("renewal_date", rc)] }

/-- Modelled from the spec: the record produced when inference fails — all
extracted-term fields null, status failed, the failure class recorded in
`extraction_notes`. -/
def failedRecord (e : InferenceError) : ExtractionRecord :=
  { vendor_name := none
    start_date := none
    end_date := none
    renewal_date := none
    renewal_term := none
    notice_period_days := none
    notice_deadline := none
    extraction_status := .failed
    extraction_confidence := none
    needs_review := true
    extraction_notes := some (describeFailure e)
    uncertain_fields := []
    candidate_dates := [] }

/-- Modelled from the spec: the pipeline boundary, absent from the
repository snapshot — a total function from the inference outcome to a
record, never an exception; failures short-circuit to `failedRecord`. -/
def runPipeline (infer : Except InferenceError RawFields) : ExtractionRecord :=
  match infer with
  | .error e => failedRecord e
  | .ok raw => normalizeFields raw

/-- Modelled from the spec: the storage collaborator's write — the new
record is appended and its index returned. -/
def persistRecord (store : List ExtractionRecord) (r : ExtractionRecord) :
    List ExtractionRecord × Nat :=
  (store ++ [r], store.length)

/-- Modelled from the spec: the storage collaborator's read. -/
def readRecord (store : List ExtractionRecord) (i : Nat) : Option ExtractionRecord :=
  store[i]?

/-- A human edit: each field is optionally given a new (possibly null)
value. -/
structure RecordUpdate where
  vendor_name : Option (Option String)
  start_date : Option (Option Date)
  end_date : Option (Option Date)
  renewal_date : Option (Option Date)
  renewal_term : Option (Option String)
  notice_period_days : Option (Option Nat)
  needs_review : Option Bool
deriving DecidableEq, Repr

/-- Modelled from the spec: applying a human edit, absent from the
repository snapshot — provided fields override, and the `DeadlineComputer`
is re-invoked on every edit. -/
def applyUpdate (r : ExtractionRecord) (u : RecordUpdate) : ExtractionRecord :=
  let r1 := { r with
    vendor_name := u.vendor_name.getD r.vendor_name
    start_date := u.start_date.getD r.start_date
    end_date := u.end_date.getD r.end_date
    renewal_date := u.renewal_date.getD r.renewal_date
    renewal_term := u.renewal_term.getD r.renewal_term
    notice_period_days := u.notice_period_days.getD r.notice_period_days
    needs_review := u.needs_review.getD r.needs_review }
  { r1 with notice_deadline := computeNoticeDeadline r1.renewal_date r1.notice_period_days }

/-- The `notice_deadline` invariant of spec §3: the stored deadline equals
the `DeadlineComputer`'s output on the stored operands. -/
def deadlineInvariant (r : ExtractionRecord) : Prop :=
  r.notice_deadline = computeNoticeDeadline r.renewal_date r.notice_period_days

/-! ### CalendarEventBuilder (spec §4.6) -/

/-- The three calendar-event kinds. -/
inductive EventKind
  | notice_deadline
  | renewal_date
  | expiration
deriving DecidableEq, Repr

/-- Wire name of an event kind, as in the frontend `CalendarEvent` type. -/
def kindName : EventKind → String
  | .notice_deadline => "notice_deadline"
  | .renewal_date => "renewal_date"
  | .expiration => "expiration"

/-- Stable event identifier derived from the `(contract_id, kind)` pair. -/
def eventUID (contract_id : Nat) (k : EventKind) : String :=
  toString contract_id ++ "-" ++ kindName k

/-- The frontend `CalendarEvent` shape (`types/index.ts`), with the date as
a structured calendar date. -/
structure CalendarEvent where
  id : String
  contract_id : Nat
  date : Date
  kind : EventKind
  title : String
  subtitle : String
deriving DecidableEq, Repr

/-- Display title of an event kind. -/
def kindTitle : EventKind → String
  | .notice_deadline => "Notice deadline"
  | .renewal_date => "Renewal"
  | .expiration => "Expiration"

/-- One deterministic event built from a record's vendor name and a date. -/
def mkEvent (contract_id : Nat) (vendor : Option String) (k : EventKind)
    (d : Date) : CalendarEvent :=
  { id := eventUID contract_id k
    contract_id := contract_id
    date := d
    kind := k
    title := kindTitle k ++ ": " ++ vendor.getD "Unknown vendor"
    subtitle := "Contract " ++ toString contract_id }

/-- The source date field feeding events of a given kind: `notice_deadline`
for kind `notice_deadline`, `renewal_date` for kind `renewal_date`,
`end_date` for kind `expiration`. -/
def sourceDate (r : ExtractionRecord) : EventKind → Option Date
  | .notice_deadline => r.notice_deadline
  | .renewal_date => r.renewal_date
  | .expiration => r.end_date

/-- Modelled from the spec: the backend `CalendarEventBuilder`, absent from
the repository snapshot — for each record, emit an event for each non-null
date among `notice_deadline`, `renewal_date` (kind renewal_date) and
`end_date` (kind expiration). -/
def buildEvents (contract_id : Nat) (r : ExtractionRecord) : List CalendarEvent :=
  ((sourceDate r .notice_deadline).map (mkEvent contract_id r.vendor_name .notice_deadline)).toList
  ++ ((sourceDate r .renewal_date).map (mkEvent contract_id r.vendor_name .renewal_date)).toList
  ++ ((sourceDate r .expiration).map (mkEvent contract_id r.vendor_name .expiration)).toList

/-! ### ScheduleSerializer (spec §4.7) -/

/-- Escape the ICS text-reserved characters backslash, semicolon, comma and
newline. -/
def escapeICSText (s : String) : String :=
  s.data.foldl (fun acc c =>
    if c = '\\' then acc ++ "\\\\"
    else if c = ';' then acc ++ "\\;"
    else if c = ',' then acc ++ "\\,"
    else if c = '\n' then acc ++ "\\n"
    else acc.push c) ""

/-- Left-pad a numeral with zeros to the given width. -/
def padNum (width n : Nat) : String :=
  let s := toString n
  String.mk (List.replicate (width - s.length) '0') ++ s

/-- All-day ICS date value `YYYYMMDD` (no time-of-day component). -/
def formatICSDate (d : Date) : String :=
  padNum 4 d.year ++ padNum 2 d.month ++ padNum 2 d.day

/-- Modelled from the spec: serialization of one event — stable UID from
`(contract_id, kind)`, all-day date, escaped free text, the descriptive
line omitted when the subtitle is empty, and an optional reminder alarm
expressed as a negative day offset. -/
def serializeEvent (reminder_days : Option Nat) (e : CalendarEvent) : List String :=
  ["BEGIN:VEVENT",
   "UID:" ++ eventUID e.contract_id e.kind,
   "DTSTART;VALUE=DATE:" ++ formatICSDate e.date,
   "SUMMARY:" ++ escapeICSText e.title]
  ++ (if e.subtitle = "" then [] else ["DESCRIPTION:" ++ escapeICSText e.subtitle])
  ++ (match reminder_days with
      | some n =>
        ["BEGIN:VALARM",
         "ACTION:DISPLAY",
         "DESCRIPTION:Reminder",
         "TRIGGER:-P" ++ toString n ++ "D",
         "END:VALARM"]
      | none => [])
  ++ ["END:VEVENT"]

/-- Modelled from the spec: the backend `ScheduleSerializer`, absent from
the repository snapshot — one entry per event plus a fixed calendar
envelope, joined with CRLF. -/
def serializeICS (events : List CalendarEvent) (reminder_days : Option Nat) : String :=
  let lines := ["BEGIN:VCALENDAR", "VERSION:2.0", "PRODID:-//BRM//Renewal Calendar//EN"]
    ++ (events.map (serializeEvent reminder_days)).flatten
    ++ ["END:VCALENDAR"]
  String.intercalate "\r\n" lines

/-! ### Frontend: edit-dialog save payload (`ContractsPage.tsx`, `handleSave`) -/

/-- A JSON-serializable value as sent in the update request body. -/
inductive JsVal
  | jstr (s : String)
  | jnum (n : Int)
  | jbool (b : Bool)
deriving DecidableEq, Repr

/-- The `editForm` state populated by `handleEditClick`: every
`ContractUpdate` field, including the review metadata. -/
structure EditForm where
  display_name : Option String
  vendor_name : Option String
  start_date : Option String
  end_date : Option String
  renewal_date : Option String
  renewal_term : Option String
  notice_period_days : Option Int
  needs_review : Option Bool
  extraction_notes : Option String
  uncertain_fields : Option (List String)
  candidate_dates : Option (List (String × List String))
deriving DecidableEq, Repr

/-- One JSON object member; an undefined (`none`) value serializes to no
member at all, as `JSON.stringify` drops undefined-valued keys. -/
def jsonMember (name : String) (v : Option JsVal) : List (String × JsVal) :=
  match v with
  | none => []
  | some x => [(name, x)]

/-- The update request body built by `handleSave` in `ContractsPage.tsx`:
the destructured fields `display_name`, `vendor_name`, `start_date`,
`end_date`, `renewal_date`, `renewal_term`, `notice_period_days`,
`needs_review` and nothing else. -/
def handleSavePayload (f : EditForm) : List (String × JsVal) :=
  jsonMember "display_name" (f.display_name.map .jstr)
  ++ jsonMember "vendor_name" (f.vendor_name.map .jstr)
  ++ jsonMember "start_date" (f.start_date.map .jstr)
  ++ jsonMember "end_date" (f.end_date.map .jstr)
  ++ jsonMember "renewal_date" (f.renewal_date.map .jstr)
  ++ jsonMember "renewal_term" (f.renewal_term.map .jstr)
  ++ jsonMember "notice_period_days" (f.notice_period_days.map .jnum)
  ++ jsonMember "needs_review" (f.needs_review.map .jbool)

/-- The member names present in a request body. -/
def payloadKeys (f : EditForm) : List String :=
  (handleSavePayload f).map Prod.fst

/-- The eight field names `handleSave` may send. -/
def allowedUpdateKeys : List String :=
  ["display_name", "vendor_name", "start_date", "end_date", "renewal_date",
   "renewal_term", "notice_period_days", "needs_review"]

/-! ### Frontend: ICS download request (`services/api.ts` `downloadICS`,
`CalendarPage.tsx` download handler) -/

/-- The request path built by `downloadICS` in `api.ts`: the
`reminder_days` query parameter is set exactly when the argument is a
number.  JavaScript numbers are modelled as integers. -/
def downloadICSUrl (reminderDays : Option Int) : String :=
  match reminderDays with
  | some n => "/calendar.ics?reminder_days=" ++ toString n
  | none => "/calendar.ics"

/-- The argument the CalendarPage download handler passes to `downloadICS`:
a blank entry is `undefined`, a non-numeric entry parses to `NaN` and is
replaced by `undefined`, otherwise the parsed number is passed. -/
def dialogReminderArg (reminderDays : String) : Option Int :=
  if jsTrim reminderDays = "" then none else parseInt? (jsTrim reminderDays)

/-! ### Frontend: notice-period rendering (`ContractsPage.tsx`) -/

/-- JavaScript truthiness of a nullable number: null and 0 are falsy. -/
def jsTruthyNum (v : Option Int) : Bool :=
  match v with
  | none => false
  | some n => n != 0

/-- The notice-period table cell: the truthiness test
`contract.notice_period_days ? ... : '—'` from `ContractsPage.tsx`. -/
def noticePeriodCell (notice_period_days : Option Int) : String :=
  if jsTruthyNum notice_period_days
  then toString (notice_period_days.getD 0) ++ " days"
  else "—"

/-- The edit dialog's notice-period field value:
`editForm.notice_period_days || ''` from `ContractsPage.tsx`. -/
def noticePeriodFieldValue (notice_period_days : Option Int) : String :=
  if jsTruthyNum notice_period_days
  then toString (notice_period_days.getD 0)
  else ""

/-! ### Frontend: contracts-table sorting (`ContractsPage.tsx`,
`sortedContracts` / `compare`) -/

/-- A JavaScript number as manipulated by the sort comparator: finite,
`NaN`, or an infinity. -/
inductive JsNum
  | nan
  | neginf
  | posinf
  | fin (v : Int)
deriving DecidableEq, Repr

/-- JavaScript subtraction on `JsNum`. -/
def jsSub : JsNum → JsNum → JsNum
  | .nan, _ => .nan
  | _, .nan => .nan
  | .fin a, .fin b => .fin (a - b)
  | .fin _, .neginf => .posinf
  | .fin _, .posinf => .neginf
  | .neginf, .fin _ => .neginf
  | .posinf, .fin _ => .posinf
  | .neginf, .neginf => .nan
  | .posinf, .posinf => .nan
  | .neginf, .posinf => .neginf
  | .posinf, .neginf => .posinf

/-- JavaScript multiplication on `JsNum`. -/
def jsMul : JsNum → JsNum → JsNum
  | .nan, _ => .nan
  | _, .nan => .nan
  | .fin a, .fin b => .fin (a * b)
  | .fin a, .neginf => if 0 < a then .neginf else if a < 0 then .posinf else .nan
  | .fin a, .posinf => if 0 < a then .posinf else if a < 0 then .neginf else .nan
  | .neginf, .fin b => if 0 < b then .neginf else if b < 0 then .posinf else .nan
  | .posinf, .fin b => if 0 < b then .posinf else if b < 0 then .neginf else .nan
  | .neginf, .neginf => .posinf
  | .posinf, .posinf => .posinf
  | .neginf, .posinf => .neginf
  | .posinf, .neginf => .neginf

/-- Effective comparator result seen by `Array.prototype.sort`: a `NaN`
comparator result counts as zero (ES SortCompare), otherwise the sign. -/
def sortOutcome : JsNum → Int
  | .nan => 0
  | .neginf => -1
  | .posinf => 1
  | .fin v => v

/-- Table sort direction. -/
inductive SortOrder
  | asc
  | desc
deriving DecidableEq, Repr

/-- The `dir` multiplier: `order === 'asc' ? 1 : -1`. -/
def dirNum : SortOrder → JsNum
  | .asc => .fin 1
  | .desc => .fin (-1)

/-- The `orderBy` values of the contracts table. -/
inductive OrderBy
  | name
  | start_date
  | end_date
  | renewal_date
  | notice_period_days
  | notice_deadline
  | status
  | needs_review
deriving DecidableEq, Repr

/-- The frontend `Contract` as the sort code reads it.  A date field is
modelled by its `dayjs(...).valueOf()` timestamp, `none` when null. -/
structure FContract where
  display_name : Option String
  file_name : String
  start_date : Option Int
  end_date : Option Int
  renewal_date : Option Int
  notice_period_days : Option Int
  notice_deadline : Option Int
  needs_review : Bool
  extraction_status : ExtractionStatus
deriving DecidableEq, Repr

/-- `getName`: `(c.display_name || c.file_name || '').toLowerCase()` —
a null or empty display name falls back to the file name. -/
def getName (c : FContract) : String :=
  jsToLower (match c.display_name with
   | some s => if s = "" then c.file_name else s
   | none => c.file_name)

/-- `localeCompare` modelled as lexicographic string comparison, returning
a sign. -/
def compareStr (a b : String) : Int :=
  match compare a b with
  | .lt => -1
  | .eq => 0
  | .gt => 1

/-- `getStatusRank`: needs review overrides `extraction_status`. -/
def getStatusRank (c : FContract) : Int :=
  if c.needs_review then 0
  else match c.extraction_status with
    | .failed => 1
    | .pending => 2
    | .success => 3

/-- The key a nullable column contributes to the comparator:
`ad ? dayjs(ad).valueOf() : Number.NEGATIVE_INFINITY` for dates and
`a.notice_period_days ?? -Infinity` for the notice period. -/
def nullKey (v : Option Int) : JsNum :=
  match v with
  | some t => .fin t
  | none => .neginf

/-- The comparator arm shared by the nullable columns:
`(at - bt) * dir` fed to the sort. -/
def nullCompare (order : SortOrder) (a b : Option Int) : Int :=
  sortOutcome (jsMul (jsSub (nullKey a) (nullKey b)) (dirNum order))

/-- The `compare` closure of `sortedContracts` in `ContractsPage.tsx`,
with its JavaScript infinity/NaN arithmetic made explicit. -/
def compareContracts (orderBy : OrderBy) (order : SortOrder) (a b : FContract) : Int :=
  match orderBy with
  | .name =>
      sortOutcome (jsMul (.fin (compareStr (getName a) (getName b))) (dirNum order))
  | .start_date => nullCompare order a.start_date b.start_date
  | .end_date => nullCompare order a.end_date b.end_date
  | .renewal_date => nullCompare order a.renewal_date b.renewal_date
  | .notice_deadline => nullCompare order a.notice_deadline b.notice_deadline
  | .notice_period_days => nullCompare order a.notice_period_days b.notice_period_days
  | .needs_review =>
      sortOutcome (jsMul
        (.fin ((if a.needs_review then 1 else 0) - (if b.needs_review then 1 else 0)))
        (dirNum order))
  | .status =>
      let ar := getStatusRank a
      let br := getStatusRank b
      if ar ≠ br then sortOutcome (jsMul (.fin (ar - br)) (dirNum order))
      else sortOutcome (jsMul (.fin (compareStr (getName a) (getName b))) (dirNum order))

/-- The sorted table: `arr.sort(compare)` modelled as an insertion sort by
the comparator's non-positive outcomes. -/
def sortedContracts (orderBy : OrderBy) (order : SortOrder) (l : List FContract) :
    List FContract :=
  List.insertionSort (fun a b => compareContracts orderBy order a b ≤ 0) l

/-- The five columns whose sort key is nullable. -/
inductive NullableCol
  | start_date
  | end_date
  | renewal_date
  | notice_deadline
  | notice_period_days
deriving DecidableEq, Repr

/-- The `orderBy` value of a nullable column. -/
def NullableCol.toOrderBy : NullableCol → OrderBy
  | .start_date => .start_date
  | .end_date => .end_date
  | .renewal_date => .renewal_date
  | .notice_deadline => .notice_deadline
  | .notice_period_days => .notice_period_days

/-- The nullable column's value on a contract. -/
def colValue : NullableCol → FContract → Option Int
  | .start_date, c => c.start_date
  | .end_date, c => c.end_date
  | .renewal_date, c => c.renewal_date
  | .notice_deadline, c => c.notice_deadline
  | .notice_period_days, c => c.notice_period_days

/-! ### Frontend: export-dialog recipient list (`CalendarPage.tsx`) -/

/-- `validateEmail` from `CalendarPage.tsx`: the regular expression
`^[^\s@]+@[^\s@]+\.[^\s@]+$` — a non-empty local part free of whitespace
and `@`, one `@`, and a domain free of whitespace and `@` that contains an
interior dot. -/
def validateEmail (value : String) : Bool :=
  match splitByPred (· = '@') value.data with
  | [l, d] =>
      !l.isEmpty
      && l.all (fun c => !c.isWhitespace)
      && d.all (fun c => !c.isWhitespace)
      && ((d.drop 1).dropLast).contains '.'
  | _ => false

/-- `.replace(/,$/, '')`: drop one trailing comma. -/
def stripTrailingComma (s : String) : String :=
  if s.data.getLast? = some ',' then ⟨s.data.dropLast⟩ else s

/-- The Enter/comma/space key handler of the recipient field: trim, drop a
trailing comma, and append only a non-empty address that passes
`validateEmail` and is not already present. -/
def addEmail (emails : List String) (emailInput : String) : List String :=
  let value := stripTrailingComma (jsTrim emailInput)
  if value ≠ "" && validateEmail value && !emails.contains value
  then emails ++ [value]
  else emails

/-- The chip-delete handler: `prev.filter(x => x !== em)`. -/
def removeEmail (emails : List String) (em : String) : List String :=
  emails.filter (· ≠ em)

/-- The recipient-list invariant: distinct addresses, each accepted by
`validateEmail`. -/
def emailListInvariant (emails : List String) : Prop :=
  emails.Nodup ∧ ∀ e ∈ emails, validateEmail e = true

/-! ## Theorems -/

/-- Claim C1: for every record, after pipeline creation and after every
subsequent edit, `notice_deadline` equals `renewal_date` minus
`notice_period_days` days when both operands are non-null and is null
otherwise; in particular renewal date 2024-06-30 with a 30-day notice
period yields notice deadline 2024-05-31. -/
theorem claim_C1_notice_deadline_invariant :
    (∀ x : Except InferenceError RawFields, deadlineInvariant (runPipeline x))
    ∧ (∀ (r : ExtractionRecord) (u : RecordUpdate), deadlineInvariant (applyUpdate r u))
    ∧ (∀ rd np, computeNoticeDeadline (some rd) (some np) = some (subDays rd np))
    ∧ (∀ np, computeNoticeDeadline none np = none)
    ∧ (∀ rd, computeNoticeDeadline rd none = none)
    ∧ computeNoticeDeadline (some ⟨2024, 6, 30⟩) (some 30) = some ⟨2024, 5, 31⟩ := by
  refine ⟨fun x => ?_, fun r u => rfl, fun rd np => rfl, fun np => ?_, fun rd => ?_, by decide⟩
  · cases x <;> rfl
  · cases np <;> rfl
  · cases rd <;> rfl

/-- Claim C3: a failed inference call yields a record (never an exception)
with status failed, all extracted-term fields null, the failure class
recorded in `extraction_notes`, and the record persisted and retrievable. -/
theorem claim_C3_failure_record :
    ∀ (e : InferenceError) (store : List ExtractionRecord),
      (runPipeline (.error e)).extraction_status = .failed
      ∧ (runPipeline (.error e)).vendor_name = none
      ∧ (runPipeline (.error e)).start_date = none
      ∧ (runPipeline (.error e)).end_date = none
      ∧ (runPipeline (.error e)).renewal_date = none
      ∧ (runPipeline (.error e)).renewal_term = none
      ∧ (runPipeline (.error e)).notice_period_days = none
      ∧ (runPipeline (.error e)).notice_deadline = none
      ∧ (runPipeline (.error e)).extraction_notes = some (describeFailure e)
      ∧ readRecord (persistRecord store (runPipeline (.error e))).1
          (persistRecord store (runPipeline (.error e))).2
          = some (runPipeline (.error e)) := by
  intro e store
  refine ⟨rfl, rfl, rfl, rfl, rfl, rfl, rfl, rfl, rfl, ?_⟩
  simp [readRecord, persistRecord]

/-- At most one built event carries any given kind. -/
theorem buildEvents_countP_le (cid : Nat) (r : ExtractionRecord) (k : EventKind) :
    ((buildEvents cid r).countP (fun e => decide (e.kind = k))) ≤ 1 := by
  obtain ⟨vn, sd, ed, rd, rt, np, ndl, st, conf, nrv, en, uf, cd⟩ := r
  cases ndl <;> cases rd <;> cases ed <;> cases k <;>
    simp [buildEvents, sourceDate, mkEvent]

/-- A built event of kind `k` exists iff the kind's source date field is
non-null. -/
theorem buildEvents_exists_iff (cid : Nat) (r : ExtractionRecord) (k : EventKind) :
    (∃ e ∈ buildEvents cid r, e.kind = k) ↔ sourceDate r k ≠ none := by
  obtain ⟨vn, sd, ed, rd, rt, np, ndl, st, conf, nrv, en, uf, cd⟩ := r
  cases ndl <;> cases rd <;> cases ed <;> cases k <;>
    simp [buildEvents, sourceDate, mkEvent]

/-- With all three source dates set, the builder emits exactly three
distinct events covering every kind. -/
theorem buildEvents_complete (cid : Nat) (r : ExtractionRecord)
    (h1 : r.notice_deadline ≠ none) (h2 : r.renewal_date ≠ none)
    (h3 : r.end_date ≠ none) :
    (buildEvents cid r).length = 3 ∧ (buildEvents cid r).Nodup
    ∧ ∀ k, ∃ e ∈ buildEvents cid r, e.kind = k := by
  obtain ⟨vn, sd, ed, rd, rt, np, ndl, st, conf, nrv, en, uf, cd⟩ := r
  rcases ndl with _ | d1
  · exact absurd rfl h1
  rcases rd with _ | d2
  · exact absurd rfl h2
  rcases ed with _ | d3
  · exact absurd rfl h3
  refine ⟨rfl, ?_, fun k => ?_⟩
  · simp [buildEvents, sourceDate, mkEvent]
  · cases k <;> simp [buildEvents, sourceDate, mkEvent]

/-- Stepping `dedupFirst`'s fold preserves the head of a non-empty
accumulator. -/
theorem dedupFirst_foldl_head? {α : Type} [DecidableEq α] (xs : List α) :
    ∀ acc : List α, acc ≠ [] →
      (xs.foldl (fun acc x => if acc.contains x then acc else acc ++ [x]) acc).head?
        = acc.head? := by
  induction xs with
  | nil => intro acc _; rfl
  | cons x xs ih =>
      intro acc hacc
      show (xs.foldl _ (if acc.contains x then acc else acc ++ [x])).head? = _
      rcases acc with _ | ⟨a, as⟩
      · exact absurd rfl hacc
      · by_cases hc : (a :: as).contains x
        · rw [if_pos hc]; exact ih (a :: as) (by simp)
        · rw [if_neg hc]
          rw [ih ((a :: as) ++ [x]) (by simp)]
          rfl

/-- `dedupFirst` keeps the first element in place. -/
theorem dedupFirst_head? {α : Type} [DecidableEq α] (l : List α) :
    (dedupFirst l).head? = l.head? := by
  rcases l with _ | ⟨x, xs⟩
  · rfl
  · exact dedupFirst_foldl_head? xs [x] (by simp)

/-- Claim C2: the calendar-event builder emits at most one event of each
kind, an event of a kind exists iff its source date field
(`notice_deadline`, `renewal_date`, `end_date` respectively) is non-null,
and a record with all three set produces exactly three distinct events,
one per kind. -/
theorem claim_C2_event_builder_invariant :
    ∀ (cid : Nat) (r : ExtractionRecord),
      (∀ k, ((buildEvents cid r).countP (fun e => decide (e.kind = k))) ≤ 1)
      ∧ (∀ k, (∃ e ∈ buildEvents cid r, e.kind = k) ↔ sourceDate r k ≠ none)
      ∧ (r.notice_deadline ≠ none → r.renewal_date ≠ none → r.end_date ≠ none →
          (buildEvents cid r).length = 3 ∧ (buildEvents cid r).Nodup
          ∧ ∀ k, ∃ e ∈ buildEvents cid r, e.kind = k) :=
  fun cid r =>
    ⟨buildEvents_countP_le cid r, buildEvents_exists_iff cid r,
     buildEvents_complete cid r⟩

/-- A successfully extracted record with end date, renewal date and
computed notice deadline all present. -/
def sampleRecord : ExtractionRecord :=
  { vendor_name := some "Acme"
    start_date := some ⟨2024, 1, 1⟩
    end_date := some ⟨2024, 12, 31⟩
    renewal_date := some ⟨2024, 6, 30⟩
    renewal_term := some "1 year"
    notice_period_days := some 30
    notice_deadline := computeNoticeDeadline (some ⟨2024, 6, 30⟩) (some 30)
    extraction_status := .success
    extraction_confidence := some 90
    needs_review := false
    extraction_notes := none
    uncertain_fields := []
    candidate_dates := [] }

/-- Witness for C2 on a record with all three source dates set. -/
theorem claim_C2_event_builder_invariant_witness :
    (buildEvents 1 sampleRecord).length = 3 ∧ (buildEvents 1 sampleRecord).Nodup :=
  have h := (claim_C2_event_builder_invariant 1 sampleRecord).2.2
    (by decide) (by decide) (by decide)
  ⟨h.1, h.2.1⟩

/-- Claim C6: serializing the same events twice with the same reminder
option gives byte-identical output, and the event identifier is derived
deterministically from the `(contract_id, kind)` pair — appearing as the
UID line of each serialized event — with distinct kinds yielding distinct
identifiers. -/
theorem claim_C6_serializer_deterministic :
    (∀ (events : List CalendarEvent) (rd : Option Nat),
      serializeICS events rd = serializeICS events rd)
    ∧ (∀ (rd : Option Nat) (e : CalendarEvent),
        (serializeEvent rd e)[1]? = some ("UID:" ++ eventUID e.contract_id e.kind))
    ∧ (∀ (c : Nat) (k : EventKind), eventUID c k = toString c ++ "-" ++ kindName k)
    ∧ (∀ (c : Nat) (k k' : EventKind), k ≠ k' → eventUID c k ≠ eventUID c k') := by
  refine ⟨fun events rd => rfl, fun rd e => rfl, fun c k => rfl, fun c k k' hne h => ?_⟩
  have hd := congrArg String.data h
  rw [eventUID, eventUID, String.data_append, String.data_append] at hd
  have h2 : (kindName k).data = (kindName k').data := List.append_cancel_left hd
  have h3 : kindName k = kindName k' := String.ext h2
  cases k <;> cases k' <;> simp_all [kindName]

/-- Witness for C6: the notice-deadline and renewal-date events of one
contract get distinct identifiers. -/
theorem claim_C6_serializer_deterministic_witness :
    eventUID 1 .notice_deadline ≠ eventUID 1 .renewal_date :=
  claim_C6_serializer_deterministic.2.2.2 1 .notice_deadline .renewal_date (by decide)

/-- The raw inference output of the ambiguous-date example: the service
returned the single raw string "03/04/2024" for the renewal date. -/
def rawAmbiguous : RawFields :=
  { vendor_name := none
    start_date := []
    end_date := []
    renewal_date := ["03/04/2024"]
    renewal_term := none
    notice_period_days := none
    confidence := none
    notes := none }

/-- Claim C4: a date field's value is the first successfully parsed,
calendar-valid candidate in the fixed format-priority order; the
calendar-valid candidates, deduplicated in the order produced, populate
`candidate_dates[field]`; the field joins `uncertain_fields` when more
than one candidate remains; and the ambiguous input "03/04/2024" yields
the candidates 2024-03-04 and 2024-04-03 for `renewal_date` and marks it
uncertain. -/
theorem claim_C4_date_normalization :
    (∀ raws : List String,
      (normalizeDateField raws).1 = ((raws.map parseDateCandidates).flatten).head?
      ∧ (normalizeDateField raws).2.1 = dedupFirst ((raws.map parseDateCandidates).flatten)
      ∧ ((normalizeDateField raws).2.2 = true
          ↔ 1 < (normalizeDateField raws).2.1.length))
    ∧ parseDateCandidates "03/04/2024" = [⟨2024, 3, 4⟩, ⟨2024, 4, 3⟩]
    ∧ (normalizeFields rawAmbiguous).renewal_date = some ⟨2024, 3, 4⟩
    ∧ (normalizeFields rawAmbiguous).candidate_dates.lookup "renewal_date"
        = some [⟨2024, 3, 4⟩, ⟨2024, 4, 3⟩]
    ∧ "renewal_date" ∈ (normalizeFields rawAmbiguous).uncertain_fields := by
  refine ⟨fun raws => ⟨?_, rfl, ?_⟩, by decide, by decide, by decide, by decide⟩
  · exact dedupFirst_head? _
  · exact decide_eq_true_iff

/-- Keys contributed by one optional JSON member lie in any list containing
its name. -/
theorem jsonMember_keys_subset (n : String) (v : Option JsVal) (ks : List String)
    (hn : n ∈ ks) : ((jsonMember n v).map Prod.fst) ⊆ ks := by
  cases v <;> simp [jsonMember, hn]

/-- Claim C5: the update request sent on save contains only the eight
editable fields; `uncertain_fields` and `candidate_dates` never appear in
the payload. -/
theorem claim_C5_update_payload_fields :
    ∀ f : EditForm,
      (∀ k ∈ payloadKeys f, k ∈ allowedUpdateKeys)
      ∧ "uncertain_fields" ∉ payloadKeys f
      ∧ "candidate_dates" ∉ payloadKeys f := by
  intro f
  have h8 : payloadKeys f ⊆ allowedUpdateKeys := by
    simp only [payloadKeys, handleSavePayload, List.map_append, List.append_subset]
    repeat' apply And.intro
    all_goals exact jsonMember_keys_subset _ _ _ (by decide)
  exact ⟨fun k hk => h8 hk, fun h => absurd (h8 h) (by decide),
    fun h => absurd (h8 h) (by decide)⟩

/-- A fully populated edit form, as after opening the dialog on a record
with every field and both review-metadata fields present. -/
def sampleEditForm : EditForm :=
  { display_name := some "Acme contract"
    vendor_name := some "Acme"
    start_date := some "2024-01-01"
    end_date := some "2024-12-31"
    renewal_date := some "2024-06-30"
    renewal_term := some "1 year"
    notice_period_days := some 30
    needs_review := some true
    extraction_notes := some "note"
    uncertain_fields := some ["renewal_date"]
    candidate_dates := some [("renewal_date", ["2024-03-04", "2024-04-03"])] }

/-- Witness for C5 on a fully populated form. -/
theorem claim_C5_update_payload_fields_witness :
    "display_name" ∈ allowedUpdateKeys
    ∧ "uncertain_fields" ∉ payloadKeys sampleEditForm :=
  ⟨(claim_C5_update_payload_fields sampleEditForm).1 "display_name" (by decide),
   (claim_C5_update_payload_fields sampleEditForm).2.1⟩

/-- Claim C7: the ICS download request carries the reminder offset exactly
when a numeric argument is supplied — `downloadICS n` requests
`/calendar.ics?reminder_days=n`, and a missing argument (blank or
non-numeric dialog entry) requests `/calendar.ics` with no query string. -/
theorem claim_C7_download_url :
    (∀ n : Int, downloadICSUrl (some n) = "/calendar.ics?reminder_days=" ++ toString n)
    ∧ downloadICSUrl none = "/calendar.ics"
    ∧ dialogReminderArg "" = none
    ∧ dialogReminderArg "   " = none
    ∧ dialogReminderArg "abc" = none
    ∧ dialogReminderArg "7" = some 7
    ∧ downloadICSUrl (dialogReminderArg "") = "/calendar.ics"
    ∧ downloadICSUrl (dialogReminderArg "abc") = "/calendar.ics"
    ∧ downloadICSUrl (dialogReminderArg "7") = "/calendar.ics?reminder_days=7" := by
  exact ⟨fun n => rfl, rfl, by decide, by decide, by decide, by decide, by decide,
    by decide, by decide⟩

/-- Claim C8: the notice-period table cell renders the placeholder for both
a null and a zero notice period, and the edit field likewise renders empty
for both; any non-zero value renders as a day count. -/
theorem claim_C8_zero_notice_period_rendering :
    noticePeriodCell none = "—"
    ∧ noticePeriodCell (some 0) = "—"
    ∧ noticePeriodFieldValue none = ""
    ∧ noticePeriodFieldValue (some 0) = ""
    ∧ (∀ n : Int, n ≠ 0 → noticePeriodCell (some n) = toString n ++ " days"
        ∧ noticePeriodFieldValue (some n) = toString n) := by
  refine ⟨rfl, rfl, rfl, rfl, fun n hn => ?_⟩
  have ht : jsTruthyNum (some n) = true := by
    simp [jsTruthyNum, hn]
  constructor
  · simp [noticePeriodCell, ht]
  · simp [noticePeriodFieldValue, ht]

/-- Witness for C8 at the concrete notice period 30. -/
theorem claim_C8_zero_notice_period_rendering_witness :
    (30 : Int) ≠ 0 ∧ noticePeriodCell (some 30) = "30 days" :=
  ⟨by decide,
   (claim_C8_zero_notice_period_rendering.2.2.2.2 30 (by decide)).1⟩

/-- The comparator key of a nullable column mapped into the linear order
`WithBot ℤ`, `⊥` standing for the `-Infinity` of a null value. -/
def keyWB (v : Option Int) : WithBot ℤ :=
  match v with
  | some t => (t : WithBot ℤ)
  | none => ⊥

/-- `keyWB` is bottom exactly on null values. -/
theorem keyWB_eq_bot_iff (v : Option Int) : keyWB v = ⊥ ↔ v = none := by
  cases v <;> simp [keyWB]

/-- Ascending comparator outcomes order the keys. -/
theorem nullCompare_nonpos_asc (x y : Option Int) :
    nullCompare .asc x y ≤ 0 ↔ keyWB x ≤ keyWB y := by
  cases x <;> cases y <;>
    simp [nullCompare, nullKey, jsSub, jsMul, sortOutcome, dirNum, keyWB,
      sub_nonpos, mul_one]

/-- Descending comparator outcomes order the keys in reverse. -/
theorem nullCompare_nonpos_desc (x y : Option Int) :
    nullCompare .desc x y ≤ 0 ↔ keyWB y ≤ keyWB x := by
  cases x <;> cases y <;>
    simp [nullCompare, nullKey, jsSub, jsMul, sortOutcome, dirNum, keyWB,
      mul_neg_one, neg_nonpos, sub_nonneg]

/-- On a nullable column, the full comparator coincides with the shared
nullable-column arm. -/
theorem compareContracts_nullable (col : NullableCol) (order : SortOrder)
    (a b : FContract) :
    compareContracts col.toOrderBy order a b
      = nullCompare order (colValue col a) (colValue col b) := by
  cases col <;> rfl

/-- Claim C9: sorting by any date column or by the notice period treats a
null value as negative infinity — ascending order places every null-valued
contract before every non-null-valued one, descending order after. -/
theorem claim_C9_null_sort_extremes :
    ∀ (col : NullableCol) (l : List FContract),
      List.Pairwise (fun a b => colValue col b = none → colValue col a = none)
        (sortedContracts col.toOrderBy .asc l)
      ∧ List.Pairwise (fun a b => colValue col a = none → colValue col b = none)
        (sortedContracts col.toOrderBy .desc l) := by
  intro col l
  constructor
  · haveI : IsTotal FContract
        (fun a b => compareContracts col.toOrderBy .asc a b ≤ 0) :=
      ⟨fun a b => by
        rw [compareContracts_nullable, compareContracts_nullable,
          nullCompare_nonpos_asc, nullCompare_nonpos_asc]
        exact le_total _ _⟩
    haveI : IsTrans FContract
        (fun a b => compareContracts col.toOrderBy .asc a b ≤ 0) :=
      ⟨fun a b c hab hbc => by
        rw [compareContracts_nullable, nullCompare_nonpos_asc] at hab hbc ⊢
        exact le_trans hab hbc⟩
    have hs := List.sorted_insertionSort
      (fun a b => compareContracts col.toOrderBy .asc a b ≤ 0) l
    exact hs.imp (fun hab hbnone => by
      rw [compareContracts_nullable, nullCompare_nonpos_asc] at hab
      have hb : keyWB (colValue col _) = ⊥ := (keyWB_eq_bot_iff _).mpr hbnone
      exact (keyWB_eq_bot_iff _).mp (le_bot_iff.mp (hb ▸ hab)))
  · haveI : IsTotal FContract
        (fun a b => compareContracts col.toOrderBy .desc a b ≤ 0) :=
      ⟨fun a b => by
        rw [compareContracts_nullable, compareContracts_nullable,
          nullCompare_nonpos_desc, nullCompare_nonpos_desc]
        exact le_total _ _⟩
    haveI : IsTrans FContract
        (fun a b => compareContracts col.toOrderBy .desc a b ≤ 0) :=
      ⟨fun a b c hab hbc => by
        rw [compareContracts_nullable, nullCompare_nonpos_desc] at hab hbc ⊢
        exact le_trans hbc hab⟩
    have hs := List.sorted_insertionSort
      (fun a b => compareContracts col.toOrderBy .desc a b ≤ 0) l
    exact hs.imp (fun hab hanone => by
      rw [compareContracts_nullable, nullCompare_nonpos_desc] at hab
      have ha : keyWB (colValue col _) = ⊥ := (keyWB_eq_bot_iff _).mpr hanone
      exact (keyWB_eq_bot_iff _).mp (le_bot_iff.mp (ha ▸ hab)))

/-- A contract with a null renewal date. -/
def contractNullRenewal : FContract :=
  { display_name := none
    file_name := "a.pdf"
    start_date := none
    end_date := none
    renewal_date := none
    notice_period_days := none
    notice_deadline := none
    needs_review := false
    extraction_status := .success }

/-- A contract with a renewal date set. -/
def contractWithRenewal : FContract :=
  { display_name := none
    file_name := "b.pdf"
    start_date := none
    end_date := none
    renewal_date := some 1719705600000
    notice_period_days := some 30
    notice_deadline := some 1717113600000
    needs_review := false
    extraction_status := .success }

/-- Witness for C9 on a two-contract table sorted ascending by renewal
date. -/
theorem claim_C9_null_sort_extremes_witness :
    List.Pairwise
      (fun a b => colValue .renewal_date b = none → colValue .renewal_date a = none)
      (sortedContracts NullableCol.renewal_date.toOrderBy .asc
        [contractWithRenewal, contractNullRenewal]) :=
  (claim_C9_null_sort_extremes .renewal_date
    [contractWithRenewal, contractNullRenewal]).1

/-- Claim C10: the export dialog's recipient list only ever contains
distinct addresses accepted by `validateEmail`; the empty list satisfies
the invariant and both the add handler and the delete handler preserve
it. -/
theorem claim_C10_email_list_invariant :
    emailListInvariant []
    ∧ (∀ (l : List String) (s : String),
        emailListInvariant l → emailListInvariant (addEmail l s))
    ∧ (∀ (l : List String) (e : String),
        emailListInvariant l → emailListInvariant (removeEmail l e)) := by
  refine ⟨⟨List.nodup_nil, by simp⟩, fun l s hl => ?_, fun l e hl => ?_⟩
  · obtain ⟨hnd, hmem⟩ := hl
    simp only [addEmail]
    split
    · next hcond =>
        simp only [Bool.and_eq_true, bne_iff_ne, Bool.not_eq_true'] at hcond
        obtain ⟨⟨hne, hval⟩, hcont⟩ := hcond
        have hnotmem : stripTrailingComma (jsTrim s) ∉ l := by
          intro hmem'
          rw [(by simp : (l.contains (stripTrailingComma (jsTrim s)) = true) ↔
            stripTrailingComma (jsTrim s) ∈ l).mpr hmem'] at hcont
          exact absurd hcont (by decide)
        refine ⟨hnd.append (List.nodup_singleton _) ?_, fun x hx => ?_⟩
        · simp [List.disjoint_singleton, hnotmem]
        · rcases List.mem_append.mp hx with hx | hx
          · exact hmem x hx
          · rw [List.mem_singleton.mp hx]
            exact hval
    · next _ => exact ⟨hnd, hmem⟩
  · obtain ⟨hnd, hmem⟩ := hl
    exact ⟨hnd.filter _, fun x hx => hmem x (List.mem_of_mem_filter hx)⟩

/-- Witness for C10: adding a valid address to the empty list yields a
list satisfying the invariant. -/
theorem claim_C10_email_list_invariant_witness :
    emailListInvariant (addEmail [] "ann@example.com") :=
  claim_C10_email_list_invariant.2.1 [] "ann@example.com"
    ⟨List.nodup_nil, by simp⟩

end BRM
